/-
  Verification of the sampler repository's core audio-workstation logic
  against its specification.

  Shallow embedding of:
  - the track / sample data model (src/types/studio.ts, studio-workspace.tsx)
  - composition-duration computation (updateCompositionDuration)
  - the playback scheduling algorithm (playComposition) and the export path
    (exportComposition)
  - the WAV encoder (audioBufferToWav)
  - the per-track signal-graph construction (delay / reverb / gain nodes)
  - waveform zoom coordinate mappings (xToTime / timeToX)
  - region extraction (extractSample) and sample CRUD (deleteSample,
    updateTrack)

  Track effect parameters, sample data and selection times are modelled as
  rationals (the UI produces them in small decimal steps); playback-rate and
  scheduling arithmetic, which involves 2^(semitones/12), lives in the reals.
-/
import Mathlib

namespace Sampler

/-- A sample in the library.  The source stores `{ id, buffer, name }`
(src/types/studio.ts); for the scheduling and duration logic only the id and
`buffer.duration` are consumed, so the buffer is represented by its
duration in seconds. -/
structure Sample where
  id : String
  duration : ℚ
deriving DecidableEq

/-- A composition track, mirroring the `CompositionTrack` interface of
src/types/studio.ts and src/components/studio-workspace.tsx (lines 71-83). -/
structure CompositionTrack where
  id : String
  sampleId : String
  startTime : ℚ
  repetitions : ℕ
  volume : ℚ
  pitchSemitones : ℤ
  reverbAmount : ℚ
  delayTime : ℚ
  delayFeedback : ℚ
deriving DecidableEq

/-- `semitonesToPlaybackRate` of studio-workspace.tsx lines 167-169:
`Math.pow(2, semitones / 12)`. -/
noncomputable def semitonesToPlaybackRate (semitones : ℤ) : ℝ :=
  (2 : ℝ) ^ ((semitones : ℝ) / 12)

theorem semitonesToPlaybackRate_zero : semitonesToPlaybackRate 0 = 1 := by
  simp [semitonesToPlaybackRate]

theorem semitonesToPlaybackRate_twelve : semitonesToPlaybackRate 12 = 2 := by
  have h : ((12 : ℤ) : ℝ) / 12 = 1 := by norm_num
  rw [semitonesToPlaybackRate, h, Real.rpow_one]

theorem semitonesToPlaybackRate_pos (s : ℤ) : 0 < semitonesToPlaybackRate s :=
  Real.rpow_pos_of_pos (by norm_num) _

/-- `updateCompositionDuration` of studio-workspace.tsx lines 630-646: fold
over the tracks, skipping tracks whose sampleId does not resolve, taking the
max of `track.startTime + (sample.buffer.duration / playbackRate) *
track.repetitions`, starting from 0. -/
noncomputable def updateCompositionDuration
    (samples : List Sample) (tracks : List CompositionTrack) : ℝ :=
  tracks.foldl
    (fun maxEndTime track =>
      match samples.find? (fun s => s.id == track.sampleId) with
      | none => maxEndTime
      | some sample =>
        let playbackRate := semitonesToPlaybackRate track.pitchSemitones
        let adjustedDuration := (sample.duration : ℝ) / playbackRate
        max maxEndTime
          ((track.startTime : ℝ) + adjustedDuration * track.repetitions))
    0

/-- Spec-side formulation (spec section 3, "Composition duration"): the end
time contributed by a single track, `none` when its sampleId is unresolved. -/
noncomputable def trackEndTimeSpec
    (samples : List Sample) (track : CompositionTrack) : Option ℝ :=
  (samples.find? (fun s => s.id == track.sampleId)).map fun sample =>
    (track.startTime : ℝ) +
      ((sample.duration : ℝ) / semitonesToPlaybackRate track.pitchSemitones) *
        track.repetitions

/-- Spec-side composition duration: max over the tracks that resolve to a
sample of their end times; tracks with an unresolved sampleId contribute
nothing, and the empty maximum is 0. -/
noncomputable def compositionDurationSpec
    (samples : List Sample) (tracks : List CompositionTrack) : ℝ :=
  (tracks.filterMap (trackEndTimeSpec samples)).foldl max 0

theorem updateCompositionDuration_eq_spec_aux
    (samples : List Sample) (tracks : List CompositionTrack) : ∀ acc : ℝ,
    tracks.foldl
      (fun maxEndTime track =>
        match samples.find? (fun s => s.id == track.sampleId) with
        | none => maxEndTime
        | some sample =>
          let playbackRate := semitonesToPlaybackRate track.pitchSemitones
          let adjustedDuration := (sample.duration : ℝ) / playbackRate
          max maxEndTime
            ((track.startTime : ℝ) + adjustedDuration * track.repetitions))
      acc
    = (tracks.filterMap (trackEndTimeSpec samples)).foldl max acc := by
  induction tracks with
  | nil => intro acc; rfl
  | cons t ts ih =>
    intro acc
    simp only [List.foldl_cons, List.filterMap_cons]
    cases h : samples.find? (fun s => s.id == t.sampleId) with
    | none => simp only [trackEndTimeSpec, h, Option.map_none]; exact ih acc
    | some sample =>
      simp only [trackEndTimeSpec, h, Option.map_some, List.foldl_cons]
      exact ih _

/-- C3: the recomputed composition duration equals the maximum over tracks
that resolve to a sample of `startTime + (duration / 2^(semitones/12)) *
repetitions`, unresolved tracks contributing nothing; and a single track of a
2-second sample with pitchSemitones = 12 and repetitions = 1 yields
composition duration 1.0. -/
theorem updateCompositionDuration_spec :
    (∀ (samples : List Sample) (tracks : List CompositionTrack),
        updateCompositionDuration samples tracks
          = compositionDurationSpec samples tracks)
    ∧ updateCompositionDuration [⟨"s1", 2⟩]
        [⟨"t1", "s1", 0, 1, 4/5, 12, 0, 0, 0⟩] = 1 := by
  constructor
  · intro samples tracks
    exact updateCompositionDuration_eq_spec_aux samples tracks 0
  · simp only [updateCompositionDuration, List.foldl_cons, List.foldl_nil,
      List.find?]
    norm_num [semitonesToPlaybackRate_twelve]

/-! ## Playback scheduling (playComposition, studio-workspace.tsx 274-627) -/

/-- One playback event issued by the scheduler: the device time at which the
buffer source is started, the offset into the source sample (the second
argument of `source.start`), and the playback rate set on the source. -/
structure SchedEvent where
  deviceTime : ℝ
  offsetInSample : ℝ
  rate : ℝ

/-- The integers `a, a+1, ..., b-1`, modelling `for (let i = a; i < b; i++)`. -/
def intsRange (a b : ℤ) : List ℤ :=
  (List.range (b - a).toNat).map fun k => a + (k : ℤ)

/-- The events `playComposition` emits for one track whose sample resolved,
given the sample buffer duration, the playback cursor `T0`
(`playbackStartTime` in the source) and the device clock `W0` (`startTime`
in the source).  Mirrors studio-workspace.tsx lines 288-609:
the `track.startTime > playbackStartTime` branch schedules every repetition
at `W0 + (trackStartTime - T0)`, dropping events before `W0`; the other
branch finds the current repetition by flooring, starts it immediately at
`W0` with an in-sample offset, and schedules each later repetition `i` at
`W0 + (repetitionStartTime + (i - repetitionIndex) * sampleDuration +
offsetInSample / playbackRate - T0)`. -/
noncomputable def scheduleTrack (track : CompositionTrack)
    (bufferDuration T0 W0 : ℝ) : List SchedEvent :=
  let playbackRate := semitonesToPlaybackRate track.pitchSemitones
  if (track.startTime : ℝ) > T0 then
    (List.range track.repetitions).filterMap fun i =>
      let trackStartTime :=
        (track.startTime : ℝ) + i * (bufferDuration / playbackRate)
      let scheduledStartTime := W0 + (trackStartTime - T0)
      if scheduledStartTime ≥ W0 then
        some ⟨scheduledStartTime, 0, playbackRate⟩
      else none
  else
    let sampleDuration := bufferDuration / playbackRate
    let trackEndTime :=
      (track.startTime : ℝ) + sampleDuration * track.repetitions
    if trackEndTime > T0 then
      let repetitionIndex : ℤ := ⌊(T0 - (track.startTime : ℝ)) / sampleDuration⌋
      if repetitionIndex < (track.repetitions : ℤ) then
        let repetitionStartTime :=
          (track.startTime : ℝ) + repetitionIndex * sampleDuration
        let offsetInSample := (T0 - repetitionStartTime) * playbackRate
        (intsRange repetitionIndex track.repetitions).map fun i =>
          if i = repetitionIndex then ⟨W0, offsetInSample, playbackRate⟩
          else
            let nextRepStartTime := repetitionStartTime +
              (i - repetitionIndex) * sampleDuration +
              offsetInSample / playbackRate
            ⟨W0 + (nextRepStartTime - T0), 0, playbackRate⟩
      else []
    else []

/-- All events of one `playComposition` invocation: per track, resolve the
sample (skip when unresolved) and emit that track's events. -/
noncomputable def scheduleComposition (samples : List Sample)
    (tracks : List CompositionTrack) (T0 W0 : ℝ) : List SchedEvent :=
  tracks.foldr
    (fun track rest =>
      match samples.find? (fun s => s.id == track.sampleId) with
      | none => rest
      | some sample => scheduleTrack track (sample.duration : ℝ) T0 W0 ++ rest)
    []

/-- The one-second three-repetition track of the seek scenario (no pitch
shift, no effects). -/
def seekTrack : CompositionTrack := ⟨"t1", "s1", 0, 3, 4/5, 0, 0, 0, 0⟩

/-- C2: evaluating the scheduler at the spec scenario — cursor T0 = 1.5
into three one-second repetitions starting at 0, no pitch shift, W0 = 0.
The code emits the current repetition immediately with in-sample offset 0.5
as the claim states, but emits the third repetition at device time 1.0,
whereas the claim requires `W0 + (repStart_2 - T0) = 0 + (2 - 1.5) = 0.5`:
the source adds `offsetInSample / playbackRate` to every later repetition's
start time, so later repetitions are delayed by the elapsed part of the
current repetition and a silence gap opens after the partial repetition. -/
theorem scheduleTrack_seek_eval :
    scheduleTrack seekTrack 1 (3/2) 0
      = [⟨0, 1/2, 1⟩, ⟨1, 0, 1⟩]
    ∧ (0 : ℝ) + (((seekTrack.startTime : ℝ) + 2 * (1 / semitonesToPlaybackRate seekTrack.pitchSemitones)) - 3/2)
        = 1/2
    ∧ (1 : ℝ) ≠ 1/2 := by
  refine ⟨?_, ?_, by norm_num⟩
  · have hrate : semitonesToPlaybackRate seekTrack.pitchSemitones = 1 :=
      semitonesToPlaybackRate_zero
    have hstart : ((seekTrack.startTime : ℚ) : ℝ) = 0 := by
      simp [seekTrack]
    rw [scheduleTrack, hrate, hstart]
    have hreps : seekTrack.repetitions = 3 := rfl
    rw [hreps]
    have h1 : ¬ ((0 : ℝ) > 3/2) := by norm_num
    rw [if_neg h1]
    have h2 : (0 : ℝ) + 1 / 1 * (3 : ℕ) > 3/2 := by norm_num
    rw [if_pos h2]
    have hfloor : ⌊((3:ℝ)/2 - 0) / (1 / 1)⌋ = 1 := by norm_num
    rw [hfloor]
    have h3 : (1 : ℤ) < ((3 : ℕ) : ℤ) := by norm_num
    rw [if_pos h3]
    have hrange : intsRange 1 (3 : ℕ) = [1, 2] := by decide
    rw [hrange]
    simp only [List.map_cons, List.map_nil]
    norm_num
  · have hp : seekTrack.pitchSemitones = 0 := rfl
    have hs : ((seekTrack.startTime : ℚ) : ℝ) = 0 := by simp [seekTrack]
    rw [hp, semitonesToPlaybackRate_zero, hs]
    norm_num

/-! ## Export (exportComposition, studio-workspace.tsx 771-839) -/

/-- What `exportComposition` sets up before calling `startRendering`: the
offline context's channel count, frame length and sample rate
(`new OfflineAudioContext(2, Math.ceil(compositionDuration * sampleRate),
sampleRate)`, lines 775-779), and the buffer sources created and started in
that offline context.  Between constructing the context and rendering, the
source only copies the impulse response into an offline buffer (lines
782-800) — it never creates, connects or starts any `AudioBufferSourceNode`
in the offline context, so the scheduled-source list is empty. -/
structure OfflineRender where
  numberOfChannels : ℕ
  length : ℕ
  sampleRate : ℕ
  scheduledSources : List SchedEvent

/-- `exportComposition`: returns `none` when the track list is empty (the
early `tracks.length === 0` guard, line 772), otherwise the offline render
configuration described above. -/
noncomputable def exportComposition (tracks : List CompositionTrack)
    (compositionDuration : ℝ) (deviceSampleRate : ℕ) : Option OfflineRender :=
  if tracks.isEmpty then none
  else some
    { numberOfChannels := 2
      length := (⌈compositionDuration * (deviceSampleRate : ℝ)⌉).toNat
      sampleRate := deviceSampleRate
      scheduledSources := [] }

/-- The single track of the export scenario: a 2-second sample placed at
startTime 0 with one repetition and no effects. -/
def exportTrack : CompositionTrack := ⟨"t1", "s1", 0, 1, 4/5, 0, 0, 0, 0⟩

/-- The sample library of the export scenario. -/
def exportSamples : List Sample := [⟨"s1", 2⟩]

theorem exportScenario_duration :
    updateCompositionDuration exportSamples [exportTrack] = 2 := by
  simp only [updateCompositionDuration, exportSamples, exportTrack,
    List.foldl_cons, List.foldl_nil, List.find?]
  norm_num [semitonesToPlaybackRate_zero]

theorem exportScenario_offline :
    exportComposition [exportTrack]
      (updateCompositionDuration exportSamples [exportTrack]) 44100
      = some ⟨2, 88200, 44100, []⟩ := by
  rw [exportScenario_duration]
  simp only [exportComposition, List.isEmpty_cons, Bool.false_eq_true,
    if_false, Option.some.injEq]
  have : (⌈(2 : ℝ) * (44100 : ℕ)⌉).toNat = 88200 := by
    rw [show (⌈(2 : ℝ) * (44100 : ℕ)⌉) = (88200 : ℤ) by norm_num]; rfl
  rw [this]

/-- C1: at the export scenario (one track of a 2-second sample, device rate
44100), `exportComposition` does construct the offline context with 2
channels, `ceil(compositionDuration * sampleRate) = 88200` frames and the
device sample rate — but it schedules no source events at all into the
offline context, while the live scheduling algorithm run from `T0 = 0`,
`W0 = 0` on the same tracks emits a (non-empty) event list.  The rendered
buffer that is encoded is therefore silence, not the live scheduler's
output. -/
theorem exportComposition_schedules_nothing :
    updateCompositionDuration exportSamples [exportTrack] = 2
    ∧ exportComposition [exportTrack]
        (updateCompositionDuration exportSamples [exportTrack]) 44100
        = some ⟨2, 88200, 44100, []⟩
    ∧ scheduleComposition exportSamples [exportTrack] 0 0
        = [⟨0, 0, 1⟩]
    ∧ ([] : List SchedEvent) ≠ [⟨0, 0, 1⟩] := by
  refine ⟨exportScenario_duration, exportScenario_offline, ?_, ?_⟩
  · show scheduleTrack exportTrack ((2 : ℚ) : ℝ) 0 0 ++ [] = [⟨0, 0, 1⟩]
    rw [List.append_nil]
    rw [scheduleTrack]
    have hrate : semitonesToPlaybackRate exportTrack.pitchSemitones = 1 :=
      semitonesToPlaybackRate_zero
    rw [hrate]
    have hs : ((exportTrack.startTime : ℚ) : ℝ) = 0 := by simp [exportTrack]
    rw [hs]
    have hreps : exportTrack.repetitions = 1 := rfl
    rw [hreps]
    have h1 : ¬ ((0 : ℝ) > 0) := by norm_num
    rw [if_neg h1]
    have h2 : (0 : ℝ) + ((2 : ℚ) : ℝ) / 1 * (1 : ℕ) > 0 := by norm_num
    rw [if_pos h2]
    have hfloor : ⌊((0:ℝ) - 0) / (((2 : ℚ) : ℝ) / 1)⌋ = 0 := by norm_num
    rw [hfloor]
    have h3 : (0 : ℤ) < ((1 : ℕ) : ℤ) := by norm_num
    rw [if_pos h3]
    have hrange : intsRange 0 (1 : ℕ) = [0] := by decide
    rw [hrange]
    simp only [List.map_cons, List.map_nil, if_pos rfl]
    norm_num
  · intro h; exact List.noConfusion h

/-! ## WAV encoding (audioBufferToWav, src/unnamed/part_000) -/

/-- A rendered audio buffer as the WAV encoder consumes it:
`getChannelData(c)[i]` is `data c i`. -/
structure RBuffer where
  numberOfChannels : ℕ
  length : ℕ
  sampleRate : ℕ
  data : ℕ → ℕ → ℚ

/-- The clamp `Math.max(-1, Math.min(1, sample))` (part_000 line 47). -/
def clampSample (x : ℚ) : ℚ := max (-1) (min 1 x)

/-- Truncation toward zero, the integer conversion `DataView.setInt16`
applies to a non-integral value (ECMAScript ToInt16 truncates). -/
def qTrunc (x : ℚ) : ℤ := if 0 ≤ x then ⌊x⌋ else ⌈x⌉

/-- Little-endian bytes of a 16-bit unsigned value. -/
def uint16le (v : ℕ) : List ℕ := [v % 256, v / 256 % 256]

/-- Little-endian bytes of a 32-bit unsigned value. -/
def uint32le (v : ℕ) : List ℕ :=
  [v % 256, v / 256 % 256, v / 65536 % 256, v / 16777216 % 256]

/-- Two's-complement little-endian bytes of a 16-bit signed value. -/
def int16le (v : ℤ) : List ℕ := uint16le (v.emod 65536).toNat

/-- The three bytes `value & 0xff`, `(value >> 8) & 0xff`,
`(value >> 16) & 0xff` of part_000 lines 58-60 (arithmetic shift is floor
division). -/
def int24le (v : ℤ) : List ℕ :=
  [(v.emod 256).toNat, ((v.fdiv 256).emod 256).toNat,
    ((v.fdiv 65536).emod 256).toNat]

/-- `quality >= 0.8 ? 24 : 16` (part_000 line 7). -/
def bitsPerSample (quality : ℚ) : ℕ := if 0.8 ≤ quality then 24 else 16

/-- `bitsPerSample / 8` (part_000 line 8). -/
def bytesPerSample (quality : ℚ) : ℕ := bitsPerSample quality / 8

/-- The 16-bit branch of `writeSample` (part_000 lines 49-53): the clamped
sample is scaled by 32767 and handed to `setInt16`, which truncates toward
zero and stores two's-complement little-endian. -/
def writeSample16 (x : ℚ) : List ℕ := int16le (qTrunc (clampSample x * 32767))

/-- The 24-bit branch of `writeSample` (part_000 lines 55-61):
`Math.floor(sample * 8388607)` written as 3 little-endian bytes. -/
def writeSample24 (x : ℚ) : List ℕ := int24le ⌊clampSample x * 8388607⌋

/-- `writeSample` (part_000 lines 45-63). -/
def writeSample (quality : ℚ) (x : ℚ) : List ℕ :=
  if bitsPerSample quality = 16 then writeSample16 x else writeSample24 x

/-- Sequential concatenation of blocks, modelling a loop that appends
`f a` for each element in order at an advancing write offset. -/
def concatMap {α β : Type} (f : α → List β) : List α → List β
  | [] => []
  | a :: as => f a ++ concatMap f as

/-- The data subchunk (part_000 lines 66-71): outer loop over frames,
inner loop over channels. -/
def wavDataBytes (b : RBuffer) (quality : ℚ) : List ℕ :=
  concatMap
    (fun i => concatMap (fun c => writeSample quality (b.data c i))
      (List.range b.numberOfChannels))
    (List.range b.length)

/-- The 44-byte RIFF/WAVE header written by part_000 lines 16-38; the
string chunks are the byte values `writeString` stores. -/
def wavHeader (b : RBuffer) (quality : ℚ) : List ℕ :=
  let bytesPS := bytesPerSample quality
  let dataLen := b.length * b.numberOfChannels * bytesPS
  [82, 73, 70, 70]                                       -- R I F F
    ++ uint32le (36 + dataLen)
    ++ [87, 65, 86, 69]                                  -- W A V E
    ++ [102, 109, 116, 32]                               -- f m t space
    ++ uint32le 16
    ++ uint16le 1
    ++ uint16le b.numberOfChannels
    ++ uint32le b.sampleRate
    ++ uint32le (b.sampleRate * b.numberOfChannels * bytesPS)
    ++ uint16le (b.numberOfChannels * bytesPS)
    ++ uint16le (bitsPerSample quality)
    ++ [100, 97, 116, 97]                                -- d a t a
    ++ uint32le dataLen

/-- `audioBufferToWav`: the full byte content of the produced blob — the
ArrayBuffer is allocated with `44 + length * numChannels * bytesPerSample`
bytes and filled by the header writes followed by the interleaved sample
writes. -/
def audioBufferToWav (b : RBuffer) (quality : ℚ) : List ℕ :=
  wavHeader b quality ++ wavDataBytes b quality

theorem writeSample_length (quality x : ℚ) :
    (writeSample quality x).length = bytesPerSample quality := by
  by_cases h : (0.8 : ℚ) ≤ quality <;>
    simp [writeSample, bitsPerSample, bytesPerSample, writeSample16,
      writeSample24, int16le, int24le, uint16le, h]

theorem length_concatMap_const {α β : Type} (f : α → List β) (m : ℕ)
    (hm : ∀ a, (f a).length = m) :
    ∀ l : List α, (concatMap f l).length = l.length * m := by
  intro l
  induction l with
  | nil => simp [concatMap]
  | cons a as ih =>
    simp [concatMap, ih, hm a, Nat.succ_mul, Nat.add_comm]

theorem wavHeader_length (b : RBuffer) (quality : ℚ) :
    (wavHeader b quality).length = 44 := by
  simp [wavHeader, uint32le, uint16le]

theorem wavDataBytes_length (b : RBuffer) (quality : ℚ) :
    (wavDataBytes b quality).length
      = b.length * b.numberOfChannels * bytesPerSample quality := by
  have hframe : ∀ i, (concatMap (fun c => writeSample quality (b.data c i))
      (List.range b.numberOfChannels)).length
        = b.numberOfChannels * bytesPerSample quality := by
    intro i
    rw [length_concatMap_const _ _
      (fun c => writeSample_length quality (b.data c i))]
    simp
  rw [wavDataBytes, length_concatMap_const _ _ hframe]
  simp [Nat.mul_assoc]

theorem audioBufferToWav_length (b : RBuffer) (quality : ℚ) :
    (audioBufferToWav b quality).length
      = 44 + b.length * b.numberOfChannels * bytesPerSample quality := by
  rw [audioBufferToWav, List.length_append, wavHeader_length,
    wavDataBytes_length]

theorem drop_append_le {α : Type} (xs ys : List α) (n : ℕ)
    (h : n ≤ xs.length) : (xs ++ ys).drop n = xs.drop n ++ ys := by
  induction xs generalizing n with
  | nil =>
    have hn : n = 0 := Nat.le_zero.mp (by simpa using h)
    subst hn; simp
  | cons a as ih =>
    cases n with
    | zero => simp
    | succ n => simpa using ih n (by simpa using h)

theorem take_append_le {α : Type} (xs ys : List α) (n : ℕ)
    (h : n ≤ xs.length) : (xs ++ ys).take n = xs.take n := by
  induction xs generalizing n with
  | nil =>
    have hn : n = 0 := Nat.le_zero.mp (by simpa using h)
    subst hn; simp
  | cons a as ih =>
    cases n with
    | zero => simp
    | succ n => simpa using ih n (by simpa using h)

theorem concatMap_drop_block {α β : Type} (f : α → List β) (m : ℕ)
    (hm : ∀ a, (f a).length = m) :
    ∀ (l : List α) (i : ℕ), (h : i < l.length) →
      (concatMap f l).drop (i * m)
        = f (l.get ⟨i, h⟩) ++ concatMap f (l.drop (i + 1)) := by
  intro l
  induction l with
  | nil => intro i h; exact absurd h (by simp)
  | cons a as ih =>
    intro i h
    cases i with
    | zero => simp [concatMap]
    | succ i =>
      have h2 : i < as.length := by simpa using h
      rw [show (i + 1) * m = m + i * m by ring, ← List.drop_drop,
        concatMap, show (f a ++ concatMap f as).drop m = concatMap f as by
          rw [← hm a]; exact List.drop_left _ _]
      simpa using ih i h2

theorem wavDataBytes_block (b : RBuffer) (quality : ℚ) (i c : ℕ)
    (hi : i < b.length) (hc : c < b.numberOfChannels) :
    ((wavDataBytes b quality).drop
        ((i * b.numberOfChannels + c) * bytesPerSample quality)).take
      (bytesPerSample quality)
      = writeSample quality (b.data c i) := by
  set m := bytesPerSample quality with hm
  set frame : ℕ → List ℕ :=
    fun j => concatMap (fun ch => writeSample quality (b.data ch j))
      (List.range b.numberOfChannels) with hframe
  have hframeLen : ∀ j, (frame j).length = b.numberOfChannels * m :=
    fun j => length_concatMap_const _ m
      (fun ch => writeSample_length quality (b.data ch j)) _ |>.trans
      (by simp)
  have hiR : i < (List.range b.length).length := by simpa using hi
  have houter : (wavDataBytes b quality).drop (i * (b.numberOfChannels * m))
      = frame i ++ concatMap frame ((List.range b.length).drop (i + 1)) := by
    have := concatMap_drop_block frame (b.numberOfChannels * m) hframeLen
      (List.range b.length) i hiR
    simpa [wavDataBytes, hframe] using this
  have hsplit : (i * b.numberOfChannels + c) * m
      = i * (b.numberOfChannels * m) + c * m := by ring
  rw [hsplit, ← List.drop_drop, houter]
  have hcm : c * m ≤ (frame i).length := by
    rw [hframeLen i]
    exact Nat.mul_le_mul_right m hc.le
  rw [drop_append_le _ _ _ hcm]
  have hcR : c < (List.range b.numberOfChannels).length := by simpa using hc
  have hinner : (frame i).drop (c * m)
      = writeSample quality (b.data c i)
        ++ concatMap (fun ch => writeSample quality (b.data ch i))
          ((List.range b.numberOfChannels).drop (c + 1)) := by
    have := concatMap_drop_block
      (fun ch => writeSample quality (b.data ch i)) m
      (fun ch => writeSample_length quality (b.data ch i))
      (List.range b.numberOfChannels) c hcR
    simpa [hframe] using this
  rw [hinner, List.append_assoc]
  rw [take_append_le _ _ m (by rw [writeSample_length]),
    List.take_of_length_le (by rw [writeSample_length])]

/-- What the claim says the 16-bit encoding is: `round(sample * 32767)` as
signed little-endian, after clamping. -/
def roundEncode16 (x : ℚ) : List ℕ := int16le (round (clampSample x * 32767))

/-- A one-frame mono buffer holding the sample value 0.65. -/
def cexBuffer : RBuffer := ⟨1, 1, 44100, fun _ _ => 13/20⟩

/-- C4 counterexample: at sample value 0.65 and 16-bit depth (quality 0.5),
the encoder writes the bytes of `trunc(0.65 * 32767) = 21298`, namely
`[50, 83]`, while the claim's `round(0.65 * 32767) = 21299` would give
`[51, 83]` — `setInt16` truncates the scaled sample, it does not round. -/
theorem wav16_not_rounded :
    wavDataBytes cexBuffer (1/2) = [50, 83]
    ∧ roundEncode16 (13/20) = [51, 83]
    ∧ wavDataBytes cexBuffer (1/2) ≠ roundEncode16 (cexBuffer.data 0 0) := by
  have hclamp : clampSample (13/20) = 13/20 := by
    norm_num [clampSample, min_def, max_def]
  have htrunc : qTrunc ((13/20 : ℚ) * 32767) = 21298 := by
    rw [qTrunc, if_pos (by norm_num)]
    norm_num
  have hround : round ((13/20 : ℚ) * 32767) = 21299 := by
    norm_num [round_eq]
  have hcode : wavDataBytes cexBuffer (1/2) = [50, 83] := by
    have hbits : bitsPerSample (1/2) = 16 := by norm_num [bitsPerSample]
    simp only [wavDataBytes, cexBuffer,
      show List.range 1 = [0] from by decide, concatMap,
      List.append_nil, writeSample, hbits, if_pos rfl, writeSample16,
      hclamp, htrunc, int16le]
    decide
  have hclaim : roundEncode16 (13/20) = [51, 83] := by
    simp only [roundEncode16, hclamp, hround, int16le]
    decide
  refine ⟨hcode, hclaim, ?_⟩
  rw [hcode, show cexBuffer.data 0 0 = 13/20 from rfl, hclaim]
  decide

/-- The per-sample encoding as the amended claim words it: clamp to
[-1, 1]; when quality selects 24-bit, `floor(sample * 8388607)` as 3
little-endian bytes; otherwise the scaled value `sample * 32767` truncated
toward zero as signed little-endian. -/
def specSampleEncoding (quality : ℚ) (x : ℚ) : List ℕ :=
  let clamped := max (-1) (min 1 x)
  if 0.8 ≤ quality then int24le ⌊clamped * 8388607⌋
  else int16le (qTrunc (clamped * 32767))

theorem writeSample_eq_spec (quality x : ℚ) :
    writeSample quality x = specSampleEncoding quality x := by
  by_cases h : (0.8 : ℚ) ≤ quality <;>
    simp [writeSample, bitsPerSample, specSampleEncoding, writeSample16,
      writeSample24, clampSample, h]

/-- C4 (amended): for every buffer and quality, the bytes of the produced
WAV file at offset `44 + (i * numChannels + c) * bytesPerSample` are exactly
the encoding of sample `i` of channel `c` — data laid out frame-major,
channel-minor — where the encoding clamps to [-1, 1] and then writes
`trunc(sample * 32767)` signed little-endian for 16-bit, and
`floor(sample * 8388607)` as 3 little-endian bytes for 24-bit. -/
theorem wav_data_layout (b : RBuffer) (quality : ℚ) (i c : ℕ)
    (hi : i < b.length) (hc : c < b.numberOfChannels) :
    ((audioBufferToWav b quality).drop
        (44 + (i * b.numberOfChannels + c) * bytesPerSample quality)).take
      (bytesPerSample quality)
      = specSampleEncoding quality (b.data c i) := by
  rw [audioBufferToWav,
    show 44 + (i * b.numberOfChannels + c) * bytesPerSample quality
      = (wavHeader b quality).length
        + (i * b.numberOfChannels + c) * bytesPerSample quality by
      rw [wavHeader_length],
    ← List.drop_drop, List.drop_left, wavDataBytes_block b quality i c hi hc,
    writeSample_eq_spec]

/-- A 2-channel 2-frame buffer used to instantiate the layout theorem. -/
def layoutBuffer : RBuffer := ⟨2, 2, 44100, fun c i => ((c : ℚ) + i) / 4⟩

/-- Witness for `wav_data_layout` at frame 1, channel 1, quality 1. -/
theorem wav_data_layout_witness :
    (1 < layoutBuffer.length ∧ 1 < layoutBuffer.numberOfChannels)
    ∧ ((audioBufferToWav layoutBuffer 1).drop
          (44 + (1 * layoutBuffer.numberOfChannels + 1)
            * bytesPerSample 1)).take (bytesPerSample 1)
        = specSampleEncoding 1 (layoutBuffer.data 1 1) :=
  ⟨⟨by decide, by decide⟩,
    wav_data_layout layoutBuffer 1 1 1 (by decide) (by decide)⟩

/-- The buffer dimensions `startRendering` produces for the export scenario:
stereo (the offline context is constructed with 2 channels) with
`ceil(2.0 * 44100) = 88200` frames; the data is whatever was rendered. -/
def renderedScenarioBuffer : RBuffer := ⟨2, 88200, 44100, fun _ _ => 0⟩

/-- C5 counterexample: the WAV file exported from the scenario's rendered
buffer does not have `44 + 2 * 44100 * 3` bytes — the offline render is
stereo, so the file holds twice that much sample data. -/
theorem wav_scenario_size_cex :
    (audioBufferToWav renderedScenarioBuffer 1).length ≠ 44 + 2 * 44100 * 3 := by
  rw [audioBufferToWav_length]
  norm_num [renderedScenarioBuffer, bytesPerSample, bitsPerSample]

/-- C5 (amended): the encoder selects 24-bit exactly when quality ≥ 0.8 and
16-bit otherwise; the produced file has exactly
`44 + frameCount * numChannels * bytesPerSample` bytes; and in the export
scenario (2-second composition at 44100 Hz, quality 1) the offline context
renders a stereo buffer of 88200 frames whose WAV file is 24-bit
(header bytes 34-35 are `[24, 0]`) and has `44 + 2 * 44100 * 2 * 3` bytes. -/
theorem wav_size_and_depth :
    (∀ (b : RBuffer) (quality : ℚ),
        (audioBufferToWav b quality).length
          = 44 + b.length * b.numberOfChannels * bytesPerSample quality)
    ∧ (∀ quality : ℚ, bitsPerSample quality = 24 ↔ 0.8 ≤ quality)
    ∧ (∀ quality : ℚ, bitsPerSample quality = 16 ↔ ¬ 0.8 ≤ quality)
    ∧ exportComposition [exportTrack]
        (updateCompositionDuration exportSamples [exportTrack]) 44100
        = some ⟨renderedScenarioBuffer.numberOfChannels,
            renderedScenarioBuffer.length, renderedScenarioBuffer.sampleRate, []⟩
    ∧ (audioBufferToWav renderedScenarioBuffer 1).length
        = 44 + 2 * 44100 * 2 * 3
    ∧ ((audioBufferToWav renderedScenarioBuffer 1).drop 34).take 2 = [24, 0] := by
  refine ⟨audioBufferToWav_length, ?_, ?_, ?_, ?_, ?_⟩
  · intro quality
    by_cases h : (0.8 : ℚ) ≤ quality <;> simp [bitsPerSample, h]
  · intro quality
    by_cases h : (0.8 : ℚ) ≤ quality <;> simp [bitsPerSample, h]
  · exact exportScenario_offline
  · rw [audioBufferToWav_length]
    norm_num [renderedScenarioBuffer, bytesPerSample, bitsPerSample]
  · rw [audioBufferToWav,
      drop_append_le _ _ 34 (by rw [wavHeader_length]; norm_num),
      take_append_le _ _ 2 (by
        have := wavHeader_length renderedScenarioBuffer 1
        simp only [List.length_drop, this]; norm_num)]
    have hheader : wavHeader renderedScenarioBuffer 1
        = [82, 73, 70, 70] ++ uint32le 529236 ++ [87, 65, 86, 69]
          ++ [102, 109, 116, 32] ++ uint32le 16 ++ uint16le 1
          ++ uint16le 2 ++ uint32le 44100 ++ uint32le 264600
          ++ uint16le 6 ++ uint16le 24 ++ [100, 97, 116, 97]
          ++ uint32le 529200 := by
      have hbits : bitsPerSample 1 = 24 := by norm_num [bitsPerSample]
      have hbyps : bytesPerSample 1 = 3 := by
        rw [bytesPerSample, hbits]
      simp only [wavHeader, renderedScenarioBuffer, hbits, hbyps]
    rw [hheader]
    decide

/-! ## Per-track signal graph (playComposition node construction,
studio-workspace.tsx 304-426 and 466-588; both branches build the same
graph) -/

/-- The audio nodes a single scheduled source can involve. -/
inductive NodeId where
  | source
  | trackGain
  | delayNode
  | delayFeedbackGain
  | delayDryGain
  | delayWetGain
  | reverbNode
  | dryGain
  | wetGain
  | finalGain
  | destination
deriving DecidableEq, Repr

/-- The signal graph built for one source: its `connect` edges, the delay
parameters `(delayTime, delayFeedback)` when a delay stage was created, the
reverb mix amount when a convolver was created, and the track gain value. -/
structure TrackGraph where
  edges : List (NodeId × NodeId)
  delayParams : Option (ℚ × ℚ)
  reverbParams : Option ℚ
  trackGainValue : ℚ
deriving DecidableEq

/-- The node construction and wiring of playComposition for one source.
Delay nodes exist iff `delayTime > 0` (with `delayTime.value` and the
feedback gain set from the track, dry gain 1.0, wet gain 0.8); reverb nodes
exist iff `reverbAmount > 0` and the impulse response is available.  The
wiring mirrors the source's connect/disconnect sequence: with no delay the
source feeds the track gain directly; enabling reverb without delay
disconnects that edge and splits the source through dry/convolver paths into
the track gain, which feeds the destination; enabling reverb after delay
calls `trackGain.disconnect()` (removing outgoing edges of the track gain)
and splits the track gain through dry/convolver paths into a final gain that
feeds the destination; with no reverb the track gain feeds the destination. -/
def buildTrackGraph (track : CompositionTrack) (hasImpulse : Bool) :
    TrackGraph :=
  let delayEdges : List (NodeId × NodeId) :=
    if 0 < track.delayTime then
      [(.source, .delayDryGain), (.source, .delayNode),
        (.delayNode, .delayFeedbackGain), (.delayFeedbackGain, .delayNode),
        (.delayNode, .delayWetGain),
        (.delayDryGain, .trackGain), (.delayWetGain, .trackGain)]
    else [(.source, .trackGain)]
  let edges :=
    if 0 < track.reverbAmount ∧ hasImpulse = true then
      if ¬ 0 < track.delayTime then
        (delayEdges.filter fun e => e ≠ (NodeId.source, NodeId.trackGain))
          ++ [(.source, .dryGain), (.source, .reverbNode),
              (.dryGain, .trackGain), (.reverbNode, .wetGain),
              (.wetGain, .trackGain), (.trackGain, .destination)]
      else
        (delayEdges.filter fun e => e.1 ≠ NodeId.trackGain)
          ++ [(.trackGain, .dryGain), (.trackGain, .reverbNode),
              (.dryGain, .finalGain), (.reverbNode, .wetGain),
              (.wetGain, .finalGain), (.finalGain, .destination)]
    else delayEdges ++ [(.trackGain, .destination)]
  { edges := edges
    delayParams :=
      if 0 < track.delayTime then some (track.delayTime, track.delayFeedback)
      else none
    reverbParams :=
      if 0 < track.reverbAmount ∧ hasImpulse = true then
        some track.reverbAmount
      else none
    trackGainValue := track.volume }

/-- C6: for a track with `delayTime = 0` the constructed signal graph has no
delay stage — no delay parameters and no edge touching the delay node — and
the graph is identical for any `delayFeedback` value, so the rendered
output, a function of the constructed graph and the (unchanged) source
sample, is bit-identical between two runs that differ only in
`delayFeedback`. -/
theorem delayFeedback_inert (track : CompositionTrack) (f : ℚ) (imp : Bool)
    (h : track.delayTime = 0) :
    buildTrackGraph { track with delayFeedback := f } imp
        = buildTrackGraph track imp
    ∧ (buildTrackGraph track imp).delayParams = none
    ∧ ∀ e ∈ (buildTrackGraph track imp).edges,
        e.1 ≠ NodeId.delayNode ∧ e.2 ≠ NodeId.delayNode := by
  have hd : ¬ 0 < track.delayTime := by rw [h]; exact lt_irrefl 0
  refine ⟨?_, ?_, ?_⟩
  · by_cases hr : 0 < track.reverbAmount ∧ imp = true
    · simp [buildTrackGraph, hd, hr]
    · simp [buildTrackGraph, hd, hr]
  · simp [buildTrackGraph, hd]
  · by_cases hr : 0 < track.reverbAmount ∧ imp = true
    · have hedges : (buildTrackGraph track imp).edges
          = [(.source, .dryGain), (.source, .reverbNode),
              (.dryGain, .trackGain), (.reverbNode, .wetGain),
              (.wetGain, .trackGain), (.trackGain, .destination)] := by
        simp only [buildTrackGraph, if_neg hd, if_pos hd, if_pos hr]
        decide
      intro e he
      rw [hedges] at he
      fin_cases he <;> exact ⟨by decide, by decide⟩
    · have hedges : (buildTrackGraph track imp).edges
          = [(.source, .trackGain), (.trackGain, .destination)] := by
        simp only [buildTrackGraph, if_neg hd, if_neg hr]
        rfl
      intro e he
      rw [hedges] at he
      fin_cases he <;> exact ⟨by decide, by decide⟩

/-- A delay-free track with reverb enabled, used to instantiate C6. -/
def inertTrack : CompositionTrack := ⟨"t", "s", 0, 1, 4/5, 0, 1/2, 0, 1/2⟩

/-- Witness for `delayFeedback_inert` at a concrete delay-free track. -/
theorem delayFeedback_inert_witness :
    inertTrack.delayTime = 0
    ∧ (buildTrackGraph { inertTrack with delayFeedback := 9/10 } true
          = buildTrackGraph inertTrack true
        ∧ (buildTrackGraph inertTrack true).delayParams = none
        ∧ ∀ e ∈ (buildTrackGraph inertTrack true).edges,
            e.1 ≠ NodeId.delayNode ∧ e.2 ≠ NodeId.delayNode) :=
  ⟨rfl, delayFeedback_inert inertTrack (9/10) true rfl⟩

/-! ## Waveform zoom coordinate mapping (xToTime / timeToX,
src/unnamed/part_003 lines 332-377) -/

/-- The start of the visible window:
`Math.max(0, zoomCenter * duration - visibleDuration / 2)` with
`visibleDuration = duration / zoomLevel`. -/
noncomputable def visibleStart (duration zoomLevel zoomCenter : ℝ) : ℝ :=
  max 0 (zoomCenter * duration - duration / zoomLevel / 2)

/-- The end of the visible window:
`Math.min(duration, startTime + visibleDuration)`. -/
noncomputable def visibleEnd (duration zoomLevel zoomCenter : ℝ) : ℝ :=
  min duration
    (visibleStart duration zoomLevel zoomCenter + duration / zoomLevel)

/-- `xToTime`: `startTime + (x / canvasWidth) * (endTime - startTime)`. -/
noncomputable def xToTime
    (duration zoomLevel zoomCenter x canvasWidth : ℝ) : ℝ :=
  visibleStart duration zoomLevel zoomCenter
    + (x / canvasWidth)
      * (visibleEnd duration zoomLevel zoomCenter
          - visibleStart duration zoomLevel zoomCenter)

/-- `timeToX`: `((time - startTime) / (endTime - startTime)) * canvasWidth`. -/
noncomputable def timeToX
    (duration zoomLevel zoomCenter time canvasWidth : ℝ) : ℝ :=
  ((time - visibleStart duration zoomLevel zoomCenter)
      / (visibleEnd duration zoomLevel zoomCenter
          - visibleStart duration zoomLevel zoomCenter)) * canvasWidth

/-- C7: for every time inside the visible window, zoom level ≥ 1, zoom
center in [0, 1] and canvas width > 0 (over a loaded buffer of positive
duration), `xToTime (timeToX t)` returns `t` — exactly, hence within 1e-6. -/
theorem xToTime_timeToX_roundtrip
    (duration zoomLevel zoomCenter t canvasWidth : ℝ)
    (hdur : 0 < duration) (hz : 1 ≤ zoomLevel)
    (hc0 : 0 ≤ zoomCenter) (hc1 : zoomCenter ≤ 1) (hW : 0 < canvasWidth)
    (ht1 : visibleStart duration zoomLevel zoomCenter ≤ t)
    (ht2 : t ≤ visibleEnd duration zoomLevel zoomCenter) :
    |xToTime duration zoomLevel zoomCenter
        (timeToX duration zoomLevel zoomCenter t canvasWidth) canvasWidth
      - t| ≤ 1e-6 := by
  have hzpos : 0 < zoomLevel := lt_of_lt_of_le one_pos hz
  have hvd : 0 < duration / zoomLevel := div_pos hdur hzpos
  have hSlt : visibleStart duration zoomLevel zoomCenter < duration := by
    rw [visibleStart]
    refine max_lt hdur ?_
    have hzd : zoomCenter * duration ≤ duration := by nlinarith
    linarith [half_pos hvd]
  have hE : visibleStart duration zoomLevel zoomCenter
      < visibleEnd duration zoomLevel zoomCenter := by
    rw [visibleEnd]
    exact lt_min hSlt (by linarith)
  have hne : visibleEnd duration zoomLevel zoomCenter
      - visibleStart duration zoomLevel zoomCenter ≠ 0 :=
    ne_of_gt (sub_pos.mpr hE)
  have hWne : canvasWidth ≠ 0 := ne_of_gt hW
  have hexact : xToTime duration zoomLevel zoomCenter
      (timeToX duration zoomLevel zoomCenter t canvasWidth) canvasWidth
        = t := by
    rw [xToTime, timeToX]
    field_simp
    ring
  rw [hexact]
  simp only [sub_self, abs_zero]
  norm_num

/-- Witness for `xToTime_timeToX_roundtrip` at duration 1, zoom 1, center 0,
width 1, t = 1/2. -/
theorem xToTime_timeToX_roundtrip_witness :
    (0 < (1 : ℝ) ∧ 1 ≤ (1 : ℝ) ∧ 0 ≤ (0 : ℝ) ∧ (0 : ℝ) ≤ 1 ∧ 0 < (1 : ℝ)
      ∧ visibleStart 1 1 0 ≤ (1/2 : ℝ) ∧ (1/2 : ℝ) ≤ visibleEnd 1 1 0)
    ∧ |xToTime 1 1 0 (timeToX 1 1 0 (1/2) 1) 1 - 1/2| ≤ 1e-6 :=
  ⟨⟨by norm_num, le_refl 1, le_refl 0, by norm_num, by norm_num,
      by norm_num [visibleStart, max_def],
      by norm_num [visibleEnd, visibleStart, max_def, min_def]⟩,
    xToTime_timeToX_roundtrip 1 1 0 (1/2) 1 (by norm_num) (le_refl 1)
      (le_refl 0) (by norm_num) (by norm_num)
      (by norm_num [visibleStart, max_def])
      (by norm_num [visibleEnd, visibleStart, max_def, min_def])⟩

/-! ## Region extraction (extractSample, src/app/page.tsx 258-291) -/

/-- `extractSample`: a new buffer of
`Math.floor((end - start) * sampleRate)` frames with the source's channel
count and sample rate; per channel, `copyFromChannel` reads from frame
`Math.floor(start * sampleRate)` for as many frames as both buffers allow
(the freshly allocated `Float32Array` is zero elsewhere) and
`copyToChannel` writes the copy into the new buffer. -/
def extractSample (buf : RBuffer) (selStart selEnd : ℚ) : RBuffer :=
  let frameCount := (⌊(selEnd - selStart) * (buf.sampleRate : ℚ)⌋).toNat
  let startFrame := (⌊selStart * (buf.sampleRate : ℚ)⌋).toNat
  { numberOfChannels := buf.numberOfChannels
    length := frameCount
    sampleRate := buf.sampleRate
    data := fun c i =>
      if i < frameCount ∧ startFrame + i < buf.length then
        buf.data c (startFrame + i)
      else 0 }

/-- C8: extracting a committed selection `[start, end]` (0 ≤ start ≤ end)
yields a buffer with `floor((end - start) * sampleRate)` frames and the
source's channel count and sample rate, whose audio data is the source's
data read from frame `floor(start * sampleRate)` — a pure function of the
inputs, built in fresh storage, so the extracted data is fully determined
by (buffer, start, end) and extracting the same region twice is
bit-identical. -/
theorem extractSample_spec (buf : RBuffer) (selStart selEnd : ℚ)
    (h0 : 0 ≤ selStart) (h1 : selStart ≤ selEnd) :
    ((extractSample buf selStart selEnd).length : ℤ)
        = ⌊(selEnd - selStart) * (buf.sampleRate : ℚ)⌋
    ∧ (extractSample buf selStart selEnd).numberOfChannels
        = buf.numberOfChannels
    ∧ (extractSample buf selStart selEnd).sampleRate = buf.sampleRate
    ∧ (∀ c i, i < (extractSample buf selStart selEnd).length →
        (⌊selStart * (buf.sampleRate : ℚ)⌋).toNat + i < buf.length →
        (extractSample buf selStart selEnd).data c i
          = buf.data c ((⌊selStart * (buf.sampleRate : ℚ)⌋).toNat + i)) := by
  refine ⟨?_, rfl, rfl, ?_⟩
  · have hnn : 0 ≤ ⌊(selEnd - selStart) * (buf.sampleRate : ℚ)⌋ := by
      apply Int.floor_nonneg.mpr
      have : (0 : ℚ) ≤ selEnd - selStart := by linarith
      positivity
    exact Int.toNat_of_nonneg hnn
  · intro c i hi hsrc
    simp only [extractSample] at hi ⊢
    rw [if_pos ⟨hi, hsrc⟩]

/-- A concrete 1-channel source buffer for the extraction witness. -/
def extractionSource : RBuffer := ⟨1, 4, 2, fun _ i => (i : ℚ)⟩

/-- Witness for `extractSample_spec` extracting `[0, 1]` at sample rate 2. -/
theorem extractSample_spec_witness :
    ((0 : ℚ) ≤ 0 ∧ (0 : ℚ) ≤ 1)
    ∧ (((extractSample extractionSource 0 1).length : ℤ)
          = ⌊((1 : ℚ) - 0) * (extractionSource.sampleRate : ℚ)⌋
        ∧ (extractSample extractionSource 0 1).numberOfChannels
            = extractionSource.numberOfChannels
        ∧ (extractSample extractionSource 0 1).sampleRate
            = extractionSource.sampleRate
        ∧ (∀ c i, i < (extractSample extractionSource 0 1).length →
            (⌊(0 : ℚ) * (extractionSource.sampleRate : ℚ)⌋).toNat + i
              < extractionSource.length →
            (extractSample extractionSource 0 1).data c i
              = extractionSource.data c
                  ((⌊(0 : ℚ) * (extractionSource.sampleRate : ℚ)⌋).toNat + i))) :=
  ⟨⟨le_refl 0, by norm_num⟩,
    extractSample_spec extractionSource 0 1 (le_refl 0) (by norm_num)⟩

/-! ## Sample deletion (deleteSample, studio-workspace.tsx 649-673) -/

/-- `deleteSample` acting on the relevant state (sample list, track list,
selected sample id): when some track references the sample the function
returns after the warning toast without touching any state; otherwise it
filters the sample out and clears the selection if it pointed at it. -/
def deleteSample (samples : List Sample) (tracks : List CompositionTrack)
    (selectedSampleId : Option String) (sampleId : String) :
    List Sample × List CompositionTrack × Option String :=
  if tracks.any (fun track => track.sampleId == sampleId) then
    (samples, tracks, selectedSampleId)
  else
    (samples.filter (fun sample => sample.id != sampleId),
      tracks,
      if selectedSampleId == some sampleId then none else selectedSampleId)

/-- C9: deleting a sample referenced by at least one composition track is
rejected — the sample list, the track list and the selection are exactly as
before the call. -/
theorem deleteSample_rejected_when_used (samples : List Sample)
    (tracks : List CompositionTrack) (selectedSampleId : Option String)
    (sampleId : String)
    (h : ∃ track ∈ tracks, track.sampleId = sampleId) :
    deleteSample samples tracks selectedSampleId sampleId
      = (samples, tracks, selectedSampleId) := by
  rw [deleteSample, if_pos]
  rw [List.any_eq_true]
  obtain ⟨track, htrack, heq⟩ := h
  exact ⟨track, htrack, by simp [heq]⟩

/-- Witness for `deleteSample_rejected_when_used`: deleting the sample the
export-scenario track references. -/
theorem deleteSample_rejected_witness :
    (∃ track ∈ [exportTrack], track.sampleId = "s1")
    ∧ deleteSample exportSamples [exportTrack] none "s1"
        = (exportSamples, [exportTrack], none) :=
  ⟨⟨exportTrack, by simp, rfl⟩,
    deleteSample_rejected_when_used exportSamples [exportTrack] none "s1"
      ⟨exportTrack, by simp, rfl⟩⟩

/-! ## Track updates (updateTrack, studio-workspace.tsx 246-252) -/

/-- A `Partial` update object: each field either absent or supplying a new
value. -/
structure TrackUpdates where
  id : Option String := none
  sampleId : Option String := none
  startTime : Option ℚ := none
  repetitions : Option ℕ := none
  volume : Option ℚ := none
  pitchSemitones : Option ℤ := none
  reverbAmount : Option ℚ := none
  delayTime : Option ℚ := none
  delayFeedback : Option ℚ := none

/-- The spread `{ ...track, ...updates }`: each field takes the update's
value when present, the track's otherwise. -/
def applyUpdates (updates : TrackUpdates) (track : CompositionTrack) :
    CompositionTrack :=
  { id := updates.id.getD track.id
    sampleId := updates.sampleId.getD track.sampleId
    startTime := updates.startTime.getD track.startTime
    repetitions := updates.repetitions.getD track.repetitions
    volume := updates.volume.getD track.volume
    pitchSemitones := updates.pitchSemitones.getD track.pitchSemitones
    reverbAmount := updates.reverbAmount.getD track.reverbAmount
    delayTime := updates.delayTime.getD track.delayTime
    delayFeedback := updates.delayFeedback.getD track.delayFeedback }

/-- `updateTrack`: map over the tracks, merging the updates into the tracks
whose id matches. -/
def updateTrack (tracks : List CompositionTrack) (trackId : String)
    (updates : TrackUpdates) : List CompositionTrack :=
  tracks.map fun track =>
    if track.id = trackId then applyUpdates updates track else track

/-- C10: `updateTrack` changes only the fields named in the updates on the
tracks whose id equals the given id — positionally, every track with a
different id is returned unchanged, a matching track becomes the merge of
its old fields with the named updates (so every unnamed field is
unchanged), and when no track has the id the list is unchanged. -/
theorem updateTrack_frame (tracks : List CompositionTrack)
    (trackId : String) (updates : TrackUpdates) :
    (updateTrack tracks trackId updates).length = tracks.length
    ∧ (∀ (i : ℕ) (track : CompositionTrack), tracks[i]? = some track →
        (track.id ≠ trackId →
          (updateTrack tracks trackId updates)[i]? = some track)
        ∧ (track.id = trackId →
          (updateTrack tracks trackId updates)[i]?
            = some (applyUpdates updates track)))
    ∧ (∀ track : CompositionTrack,
        (updates.id = none → (applyUpdates updates track).id = track.id)
        ∧ (updates.sampleId = none →
            (applyUpdates updates track).sampleId = track.sampleId)
        ∧ (updates.startTime = none →
            (applyUpdates updates track).startTime = track.startTime)
        ∧ (updates.repetitions = none →
            (applyUpdates updates track).repetitions = track.repetitions)
        ∧ (updates.volume = none →
            (applyUpdates updates track).volume = track.volume)
        ∧ (updates.pitchSemitones = none →
            (applyUpdates updates track).pitchSemitones
              = track.pitchSemitones)
        ∧ (updates.reverbAmount = none →
            (applyUpdates updates track).reverbAmount = track.reverbAmount)
        ∧ (updates.delayTime = none →
            (applyUpdates updates track).delayTime = track.delayTime)
        ∧ (updates.delayFeedback = none →
            (applyUpdates updates track).delayFeedback
              = track.delayFeedback))
    ∧ ((∀ track ∈ tracks, track.id ≠ trackId) →
        updateTrack tracks trackId updates = tracks) := by
  refine ⟨by simp [updateTrack], ?_, ?_, ?_⟩
  · intro i track hget
    constructor
    · intro hne
      simp [updateTrack, List.getElem?_map, hget, if_neg hne]
    · intro heq
      simp [updateTrack, List.getElem?_map, hget, if_pos heq]
  · intro track
    refine ⟨?_, ?_, ?_, ?_, ?_, ?_, ?_, ?_, ?_⟩ <;>
      · intro hnone; simp [applyUpdates, hnone]
  · intro hall
    rw [updateTrack]
    calc tracks.map (fun track =>
          if track.id = trackId then applyUpdates updates track else track)
        = tracks.map id := List.map_congr_left fun t ht => by
            rw [if_neg (hall t ht)]; rfl
      _ = tracks := List.map_id tracks

/-- Two concrete tracks for the frame-property witness. -/
def trackA : CompositionTrack := ⟨"a", "s1", 0, 1, 4/5, 0, 0, 0, 0⟩

/-- Second concrete track (different id). -/
def trackB : CompositionTrack := ⟨"b", "s1", 1, 2, 1/2, 0, 0, 0, 0⟩

/-- A volume-only update object. -/
def volumeHalf : TrackUpdates := { volume := some (1/2) }

/-- Witness for `updateTrack_frame`: updating trackA's volume leaves trackB
(different id) unchanged at its position. -/
theorem updateTrack_frame_witness :
    ([trackA, trackB][1]? = some trackB ∧ trackB.id ≠ "a")
    ∧ (updateTrack [trackA, trackB] "a" volumeHalf)[1]? = some trackB :=
  ⟨⟨rfl, by decide⟩,
    ((updateTrack_frame [trackA, trackB] "a" volumeHalf).2.1 1 trackB
        rfl).1 (by decide)⟩

end Sampler
